import Mathlib

/-!
Verification development for the PDF-Audio-Converter repository.

Shallow embedding of the pure computational core of the repository:
* `src/pdf_audio_converter/utils.py` (`extract_text_from_pdf`, `_wrap_text`),
* the `chunks` generator inside `text_to_speech` in `src/pdf_audio_converter/tts.py`,
* the error-handling skeleton of `src/pdf_audio_converter/stt.py`
  (`_recognize`, `speech_to_text`),
* the CLI default-resolution expressions of `src/pdf_audio_converter/main.py`
  together with `config.py` (`Defaults`).

Texts are modelled as `List Char`.  Python `int` is modelled as `Int`,
Python `float` (used only for widths and the volume, where all the
computations performed are exact) as `ℚ`.  Fallible operations return
`Except`; external effects (PDF page extraction, the speech recognizer,
microphone acquisition) are parameters of the embedded functions.
-/

/-- ASCII whitespace recognised by Python's `str.strip()` (the embedding is
restricted to ASCII text; Python additionally strips other Unicode
whitespace, which no claim exercises). -/
def isPySpace (c : Char) : Bool :=
  c == ' ' || c == '\t' || c == '\n' || c == '\r' || c == '\x0B' || c == '\x0C'

/-- Python `s.strip()`: remove leading and trailing whitespace. -/
def pyStrip (s : List Char) : List Char :=
  ((s.dropWhile isPySpace).reverse.dropWhile isPySpace).reverse

/-- Python slice `s[i : i + n]` (clamped at the end of the list, as in Python). -/
def pySlice (s : List Char) (i n : Nat) : List Char :=
  (s.drop i).take n

/-- Python `range(0, stop, step)` for a positive `step`: the multiples of
`step` below `stop`; it has `⌈stop / step⌉ = (stop + step - 1) / step`
elements. -/
def pyRange0 (stop step : Nat) : List Nat :=
  List.range' 0 ((stop + step - 1) / step) step

/-! ## `tts.py`: the `chunks` generator inside `text_to_speech`

```python
def chunks() -> Iterable[str]:
    s = text.strip()
    for i in range(0, len(s), chunk_size):
        yield s[i : i + chunk_size]
```
-/

/-- The chunk list produced by the `chunks` generator of `text_to_speech`
(`tts.py`): strip the text once, then slice it at every multiple of
`chunk_size`. -/
def text_to_speech_chunks (text : List Char) (chunk_size : Nat) : List (List Char) :=
  let s := pyStrip text
  (pyRange0 s.length chunk_size).map (fun i => pySlice s i chunk_size)

/-! ## `utils.py` (imported as `pdf_utils`): `extract_text_from_pdf` -/

/-- Outcome of `page.extract_text()` on one PDF page: it either returns an
optional string (`None` for no text) or raises. -/
inductive PageExtract where
  | returns (txt : Option (List Char))
  | raises
deriving DecidableEq, Repr

/-- The text one page contributes, per the loop body
`try: txt = page.extract_text() or "" except Exception: txt = ""`:
a raising page and a `None`/empty result both contribute `""`. -/
def pageTxt (p : PageExtract) : List Char :=
  match p with
  | .returns (some t) => t
  | .returns none => []
  | .raises => []

/-- Normalised start page: `if start is None: start = 1`. -/
def normStart (start : Option Int) : Int :=
  start.getD 1

/-- Normalised end page: `if end is None or end > n: end = n` where `n` is the
page count. -/
def normEnd (n : Int) (e : Option Int) : Int :=
  match e with
  | none => n
  | some e0 => if n < e0 then n else e0

/-- The error raised by `extract_text_from_pdf`:
`raise ValueError("Invalid page range")`. -/
inductive PdfError where
  | invalidRange
deriving DecidableEq, Repr

/-- `extract_text_from_pdf` (`utils.py`): normalise the 1-based inclusive page
range, reject it when `start < 1 or start > end`, otherwise join the texts of
pages `start-1 .. end-1` with a newline and strip the result.  A document is
its list of per-page extraction outcomes; the slice
`(pages.drop (start-1)).take (end-start+1)` is the pages visited by
`for i in range(start - 1, end)`. -/
def extract_text_from_pdf (pages : List PageExtract)
    (page_range : Option Int × Option Int) : Except PdfError (List Char) :=
  let n : Int := (pages.length : Int)
  let start := normStart page_range.1
  let e := normEnd n page_range.2
  if start < 1 ∨ e < start then
    .error .invalidRange
  else
    let texts := ((pages.drop (start - 1).toNat).take (e - start + 1).toNat).map pageTxt
    .ok (pyStrip (List.intercalate ['\n'] texts))

/-! ## `utils.py`: `_wrap_text`

```python
def _wrap_text(lines, max_width, char_width=6.0):
    max_chars = max(int(max_width // char_width), 1)
    for line in lines:
        while len(line) > max_chars:
            yield line[:max_chars]
            line = line[max_chars:]
        yield line
```
-/

/-- The inner `while` loop of `_wrap_text` on one line: emit slices of
`max_chars` characters while the remainder is longer than `max_chars`, then
emit the remainder.  The `0 < max_chars` guard only serves termination of the
Lean definition: `_wrap_text` always calls it with `max_chars ≥ 1`. -/
def wrapLine (max_chars : Nat) (line : List Char) : List (List Char) :=
  if h : 0 < max_chars ∧ max_chars < line.length then
    line.take max_chars :: wrapLine max_chars (line.drop max_chars)
  else
    [line]
termination_by line.length
decreasing_by
  simp only [List.length_drop]
  omega

/-- `max_chars = max(int(max_width // char_width), 1)` of `_wrap_text`; the
float floor-division is exact on the values involved, so it is modelled by the
rational floor. -/
def maxCharsOf (max_width char_width : ℚ) : Nat :=
  (max ⌊max_width / char_width⌋ 1).toNat

/-- `_wrap_text` (`utils.py`): wrap every line with `wrapLine`, concatenating
the yields in order. -/
def _wrap_text (lines : List (List Char)) (max_width : ℚ) (char_width : ℚ := 6) :
    List (List Char) :=
  lines.flatMap (wrapLine (maxCharsOf max_width char_width))

/-! ## `stt.py`: `_recognize` and `speech_to_text`

The recognizer backend and the microphone are external; they enter the
embedding as parameters describing their outcome.  Logging is modelled by
returning the list of messages passed to `logger.error`.
-/

/-- Outcome of `recognizer.recognize_google(audio, language=language)`:
a transcription, `sr.UnknownValueError`, or `sr.RequestError` with a
message. -/
inductive RecognizeOutcome where
  | success (text : List Char)
  | unknownValue
  | requestError (msg : List Char)
deriving DecidableEq, Repr

/-- `_recognize` (`stt.py`): result text together with the list of messages
logged via `logger.error`.  `UnknownValueError` yields `""` silently;
`RequestError` logs `"STT API error: ..."` and yields `""`.  The function is
total: no outcome escapes as an exception. -/
def _recognize (outcome : RecognizeOutcome) : List Char × List (List Char) :=
  match outcome with
  | .success t => (t, [])
  | .unknownValue => ([], [])
  | .requestError m => ([], [['S', 'T', 'T', ' ', 'A', 'P', 'I', ' ', 'e', 'r', 'r', 'o', 'r', ':', ' '] ++ m])

/-- `speech_to_text` (`stt.py`): `sr.Microphone()` either succeeds or raises
with a message; on failure the function logs `"No microphone available: ..."`
and returns `""`, otherwise it listens and delegates to `_recognize`. -/
def speech_to_text (micAcquire : Except (List Char) Unit)
    (listened : RecognizeOutcome) : List Char × List (List Char) :=
  match micAcquire with
  | .error e => ([], [['N', 'o', ' ', 'm', 'i', 'c', 'r', 'o', 'p', 'h', 'o', 'n', 'e', ' ', 'a', 'v', 'a', 'i', 'l', 'a', 'b', 'l', 'e', ':', ' '] ++ e])
  | .ok _ => _recognize listened

/-! ## `config.py` and `main.py`: CLI default resolution

`main.py` resolves several CLI arguments with Python's `or`:
`args.rate or Defaults.tts_rate`, `args.volume or Defaults.tts_volume`,
`args.limit or Defaults.phrase_time_limit`.  Python `or` replaces a falsy
left operand (`0`, `0.0`, `None`) by the right operand.
-/

/-- `Defaults.tts_rate` (`config.py`). -/
def Defaults_tts_rate : Int := 180

/-- `Defaults.tts_volume` (`config.py`): `0.9`. -/
def Defaults_tts_volume : ℚ := 9 / 10

/-- `Defaults.phrase_time_limit` (`config.py`): `None`, meaning no limit. -/
def Defaults_phrase_time_limit : Option Int := none

/-- Python `x or d` on `int`: `x` is falsy exactly when it is `0`. -/
def pyOrInt (x d : Int) : Int :=
  if x = 0 then d else x

/-- Python `x or d` on `float` (modelled as `ℚ`): `x` is falsy exactly when it
is `0.0`. -/
def pyOrRat (x d : ℚ) : ℚ :=
  if x = 0 then d else x

/-- Python `x or d` on `Optional[int]`: both `None` and `0` are falsy. -/
def pyOrOptInt (x d : Option Int) : Option Int :=
  match x with
  | none => d
  | some v => if v = 0 then d else some v

/-- The rate `_cmd_tts` (and the `--speak-back` path of `_cmd_stt`) passes to
`text_to_speech`: `args.rate or Defaults.tts_rate`. -/
def cmd_tts_rate (rate : Int) : Int :=
  pyOrInt rate Defaults_tts_rate

/-- The volume `_cmd_tts` (and the `--speak-back` path of `_cmd_stt`) passes
to `text_to_speech`: `args.volume or Defaults.tts_volume`. -/
def cmd_tts_volume (volume : ℚ) : ℚ :=
  pyOrRat volume Defaults_tts_volume

/-- The phrase time limit `_cmd_stt` passes to `speech_to_text`:
`args.limit or Defaults.phrase_time_limit`. -/
def cmd_stt_limit (limit : Option Int) : Option Int :=
  pyOrOptInt limit Defaults_phrase_time_limit

/-! ## Lemmas about the chunk generator -/

/-- The chunk list of an already-stripped string: the loop body of the
`chunks` generator. -/
def chunksCore (s : List Char) (chunk_size : Nat) : List (List Char) :=
  (pyRange0 s.length chunk_size).map (fun i => pySlice s i chunk_size)

/-- The pages of a document lying in the 1-based inclusive range
`[start, e]`, selected by their page number (the specification-level
description of the pages `extract_text_from_pdf` visits).  The default value
of `getD` is never reached for an in-bounds range. -/
def pagesInRange (pages : List PageExtract) (start e : Int) : List PageExtract :=
  (List.range' (start - 1).toNat (e - start + 1).toNat).map (fun i => pages.getD i .raises)

theorem text_to_speech_chunks_eq (text : List Char) (n : Nat) :
    text_to_speech_chunks text n = chunksCore (pyStrip text) n := rfl

theorem pyRange0_zero (step : Nat) : pyRange0 0 step = [] := by
  unfold pyRange0
  rcases Nat.eq_zero_or_pos step with h | h
  · subst h; rfl
  · rw [Nat.div_eq_of_lt (by omega)]
    rfl

theorem chunksCore_nil (n : Nat) : chunksCore [] n = [] := by
  simp [chunksCore, pyRange0_zero]

theorem chunksCore_cons (s : List Char) (n : Nat) (hn : 0 < n) (hs : s ≠ []) :
    chunksCore s n = s.take n :: chunksCore (s.drop n) n := by
  have hL : 0 < s.length := List.length_pos.mpr hs
  unfold chunksCore pyRange0
  have hk : (s.length + n - 1) / n = (s.length - 1) / n + 1 := by
    have h1 : s.length + n - 1 = (s.length - 1) + n := by omega
    rw [h1, Nat.add_div_right _ hn]
  have hk2 : ((s.drop n).length + n - 1) / n = (s.length - 1) / n := by
    rw [List.length_drop]
    rcases le_or_lt n s.length with h | h
    · have h1 : s.length - n + n - 1 = s.length - 1 := by omega
      rw [h1]
    · have h1 : s.length - n = 0 := by omega
      rw [h1, Nat.div_eq_of_lt (by omega), Nat.div_eq_of_lt (by omega)]
  rw [hk, hk2, List.range'_succ, List.map_cons]
  congr 1
  rw [Nat.zero_add]
  have hmap : List.range' n ((s.length - 1) / n) n
      = (List.range' 0 ((s.length - 1) / n) n).map (fun x => n + x) := by
    rw [List.map_add_range', Nat.add_zero]
  rw [hmap, List.map_map]
  apply List.map_congr_left
  intro i _
  simp [pySlice, List.drop_drop]

theorem chunksCore_ne_nil (s : List Char) (n : Nat) (hn : 0 < n) (hs : s ≠ []) :
    chunksCore s n ≠ [] := by
  rw [chunksCore_cons s n hn hs]
  simp

theorem chunksCore_length (s : List Char) (n : Nat) :
    (chunksCore s n).length = (s.length + n - 1) / n := by
  simp [chunksCore, pyRange0]

theorem chunksCore_flatten : ∀ (s : List Char) (n : Nat), 0 < n →
    (chunksCore s n).flatten = s
  | s, n, hn => by
    by_cases hs : s = []
    · subst hs; simp [chunksCore_nil]
    · rw [chunksCore_cons s n hn hs]
      have ih := chunksCore_flatten (s.drop n) n hn
      simp [ih]
termination_by s _ _ => s.length
decreasing_by
  have hL : 0 < s.length := List.length_pos.mpr hs
  simp only [List.length_drop]
  omega

theorem chunksCore_dropLast : ∀ (s : List Char) (n : Nat), 0 < n →
    ∀ c ∈ (chunksCore s n).dropLast, c.length = n
  | s, n, hn => by
    by_cases hs : s = []
    · subst hs; simp [chunksCore_nil]
    · rw [chunksCore_cons s n hn hs]
      by_cases h2 : s.drop n = []
      · rw [h2, chunksCore_nil]
        simp
      · intro c hc
        rw [List.dropLast_cons_of_ne_nil (chunksCore_ne_nil _ _ hn h2)] at hc
        rcases List.mem_cons.mp hc with rfl | hc2
        · have hlt : n < s.length := by
            have h3 := List.length_pos.mpr h2
            rw [List.length_drop] at h3
            omega
          simp [List.length_take]
          omega
        · exact chunksCore_dropLast (s.drop n) n hn c hc2
termination_by s _ _ => s.length
decreasing_by
  have hL : 0 < s.length := List.length_pos.mpr hs
  simp only [List.length_drop]
  omega

/-! ## Lemmas about the naive line wrapper -/

theorem wrapLine_flatten : ∀ (m : Nat) (line : List Char), (wrapLine m line).flatten = line
  | m, line => by
    rw [wrapLine]
    split
    · rename_i h
      have ih := wrapLine_flatten m (line.drop m)
      simp [ih]
    · simp
termination_by m line => line.length
decreasing_by
  simp only [List.length_drop]
  omega

theorem wrapLine_mem_length : ∀ (m : Nat) (line : List Char), 1 ≤ m →
    ∀ out ∈ wrapLine m line, out.length ≤ m
  | m, line, hm => by
    rw [wrapLine]
    split
    · rename_i h
      intro out hout
      rcases List.mem_cons.mp hout with rfl | h2
      · simp [List.length_take]
      · exact wrapLine_mem_length m (line.drop m) hm out h2
    · rename_i h
      intro out hout
      rcases List.mem_singleton.mp hout with rfl
      push_neg at h
      have := h (by omega)
      omega
termination_by m line _ => line.length
decreasing_by
  simp only [List.length_drop]
  omega

theorem maxCharsOf_pos (mw cw : ℚ) : 1 ≤ maxCharsOf mw cw := by
  unfold maxCharsOf
  have h : (1 : ℤ) ≤ max ⌊mw / cw⌋ 1 := le_max_right _ _
  omega

theorem maxCharsOf_thirty_six : maxCharsOf 30 6 = 5 := by
  norm_num [maxCharsOf]
  rfl

theorem maxCharsOf_three_six : maxCharsOf 3 6 = 1 := by
  norm_num [maxCharsOf]

theorem wrapLine_five_example : wrapLine 5 ['a','b','c','d','e','f','g','h','i','j']
    = [['a','b','c','d','e'], ['f','g','h','i','j']] := by
  rw [wrapLine]
  norm_num
  rw [wrapLine]
  norm_num

theorem wrapLine_one_ab : wrapLine 1 ['a', 'b'] = [['a'], ['b']] := by
  rw [wrapLine]
  norm_num
  rw [wrapLine]
  norm_num

/-- Evaluation of the C2 example on the code: wrapping the single line
`"abcdefghij"` with `max_width = 30`, `char_width = 6` (so `max_chars = 5`)
yields the two lines `"abcde"`, `"fghij"`: the `while` condition
`len(line) > max_chars` is already false for the 5-character remainder, so no
trailing empty line is produced. -/
theorem wrap_text_example_eval :
    _wrap_text [['a','b','c','d','e','f','g','h','i','j']] 30 6
      = [['a','b','c','d','e'], ['f','g','h','i','j']] := by
  unfold _wrap_text
  rw [maxCharsOf_thirty_six]
  simp [wrapLine_five_example]

theorem wrap_text_ab_eval : _wrap_text [['a', 'b']] 3 6 = [['a'], ['b']] := by
  unfold _wrap_text
  rw [maxCharsOf_three_six]
  simp [wrapLine_one_ab]

/-- C1: for every text `t` and chunk size `n ≥ 1`, the chunk sequence of
`text_to_speech` is finite of length `⌈len(t.strip()) / n⌉`
(`= (len + n - 1) / n`), concatenating its elements reproduces `t.strip()`
exactly, every chunk except possibly the last has length exactly `n`, and
chunking `"abcdefghij"` with size 6 yields exactly `["abcdef", "ghij"]`. -/
theorem text_to_speech_chunks_spec (t : List Char) (n : Nat) (hn : 1 ≤ n) :
    (text_to_speech_chunks t n).length = ((pyStrip t).length + n - 1) / n
    ∧ (text_to_speech_chunks t n).flatten = pyStrip t
    ∧ (∀ c ∈ (text_to_speech_chunks t n).dropLast, c.length = n)
    ∧ text_to_speech_chunks ("abcdefghij".toList) 6 = ["abcdef".toList, "ghij".toList] := by
  refine ⟨?_, ?_, ?_, ?_⟩
  · rw [text_to_speech_chunks_eq]
    exact chunksCore_length _ _
  · rw [text_to_speech_chunks_eq]
    exact chunksCore_flatten _ _ hn
  · rw [text_to_speech_chunks_eq]
    exact chunksCore_dropLast _ _ hn
  · decide

/-- Witness for C1 at `t = "abcdefghij"`, `n = 6`. -/
theorem text_to_speech_chunks_spec_witness :
    1 ≤ 6
    ∧ ((text_to_speech_chunks ("abcdefghij".toList) 6).length
          = ((pyStrip ("abcdefghij".toList)).length + 6 - 1) / 6
      ∧ (text_to_speech_chunks ("abcdefghij".toList) 6).flatten = pyStrip ("abcdefghij".toList)
      ∧ (∀ c ∈ (text_to_speech_chunks ("abcdefghij".toList) 6).dropLast, c.length = 6)
      ∧ text_to_speech_chunks ("abcdefghij".toList) 6 = ["abcdef".toList, "ghij".toList]) :=
  ⟨by decide, text_to_speech_chunks_spec ("abcdefghij".toList) 6 (by decide)⟩

/-! ## Lemmas about `extract_text_from_pdf` -/

theorem drop_take_eq_map_range' {α : Type} (l : List α) (d : α) (a b : Nat)
    (h : a + b ≤ l.length) :
    (l.drop a).take b = (List.range' a b).map (fun i => l.getD i d) := by
  apply List.ext_getElem
  · simp only [List.length_take, List.length_drop, List.length_map, List.length_range']
    omega
  · intro i h1 h2
    have hi : i < b := by
      simpa using h2
    have hib : a + i < l.length := by omega
    simp only [List.getElem_take, List.getElem_drop, List.getElem_map, List.getElem_range',
      Nat.one_mul]
    rw [List.getD_eq_getElem l d hib]

theorem normEnd_le (n : Int) (e : Option Int) : normEnd n e ≤ n := by
  unfold normEnd
  rcases e with _ | e0
  · exact le_refl n
  · dsimp only
    split <;> omega

theorem intercalate_all_nil_mem (sep : Char) :
    ∀ (ts : List (List Char)), (∀ t ∈ ts, t = []) →
      ∀ c ∈ List.intercalate [sep] ts, c = sep
  | [], _ => by simp [List.intercalate]
  | [t], h => by
    have ht : t = [] := h t (by simp)
    subst ht
    simp [List.intercalate]
  | t1 :: t2 :: rest, h => by
    have ht1 : t1 = [] := h t1 (by simp)
    have ih := intercalate_all_nil_mem sep (t2 :: rest) (fun t htm => h t (by simp [htm]))
    intro c hc
    rw [List.intercalate, List.intersperse_cons_cons, List.flatten_cons, ht1] at hc
    simp only [List.nil_append, List.flatten_cons] at hc
    rcases List.mem_append.mp hc with hc1 | hc2
    · simpa using hc1
    · exact ih c (by rw [List.intercalate]; exact hc2)

theorem pyStrip_all_space (l : List Char) (h : ∀ c ∈ l, isPySpace c = true) :
    pyStrip l = [] := by
  unfold pyStrip
  rw [List.dropWhile_eq_nil_iff.mpr h]
  rfl

/-- C2 counterexample: wrapping the single line `"abcdefghij"` with
`max_width = 30`, `char_width = 6` (`max_chars = 5`) does NOT yield the three
lines `["abcde", "fghij", ""]` claimed: the loop condition is a strict
`len(line) > max_chars`, so the 5-character remainder `"fghij"` is emitted
as the final line and no empty line follows it. -/
theorem wrap_text_example_cex :
    _wrap_text [['a','b','c','d','e','f','g','h','i','j']] 30 6
      ≠ [['a','b','c','d','e'], ['f','g','h','i','j'], []] := by
  rw [wrap_text_example_eval]
  decide

/-- C2 amended: wrapping the single line `"abcdefghij"` with `max_width = 30`,
`char_width = 6` (`max_chars = 5`) yields exactly the two lines
`["abcde", "fghij"]`; a final remainder is emitted once the `while` condition
fails, and it is empty only when the input line itself was empty. -/
theorem wrap_text_example_amended :
    _wrap_text [['a','b','c','d','e','f','g','h','i','j']] 30 6
      = [['a','b','c','d','e'], ['f','g','h','i','j']] :=
  wrap_text_example_eval

/-- C3 counterexample: with `max_width = 3`, `char_width = 6` we get
`floor(max_width / char_width) = 0`, yet `_wrap_text` emits the 1-character
line `"a"` (its `max_chars` is clamped below at 1), so "no output line is
longer than `floor(maxWidth/avgCharWidth)` characters" fails. -/
theorem wrap_text_bound_cex :
    ¬ (∀ out ∈ _wrap_text [['a', 'b']] 3 6, (out.length : ℤ) ≤ ⌊(3 : ℚ) / 6⌋) := by
  intro hcl
  have h1 : (['a'] : List Char) ∈ _wrap_text [['a', 'b']] 3 6 := by
    rw [wrap_text_ab_eval]
    simp
  have h2 := hcl ['a'] h1
  norm_num at h2

/-- C3 amended: for every list of input lines and all widths (with a positive
average character width, as in every call the code makes), concatenating the
output lines produced for one input line reproduces that line exactly, and no
output line is longer than `max(floor(maxWidth/avgCharWidth), 1)` characters
(the clamped `max_chars` the code actually uses). -/
theorem wrap_text_spec (lines : List (List Char)) (mw cw : ℚ) (hcw : 0 < cw) :
    (∀ line ∈ lines, (wrapLine (maxCharsOf mw cw) line).flatten = line)
    ∧ (∀ out ∈ _wrap_text lines mw cw, out.length ≤ maxCharsOf mw cw) := by
  constructor
  · intro line _
    exact wrapLine_flatten _ line
  · intro out hout
    unfold _wrap_text at hout
    rcases List.mem_flatMap.mp hout with ⟨line, _, hmem⟩
    exact wrapLine_mem_length _ line (maxCharsOf_pos mw cw) out hmem

/-- Witness for C3 (amended) at `lines = ["abcdefghij"]`, `mw = 30`, `cw = 6`. -/
theorem wrap_text_spec_witness :
    (0 : ℚ) < 6
    ∧ ((∀ line ∈ [['a','b','c','d','e','f','g','h','i','j']],
          (wrapLine (maxCharsOf 30 6) line).flatten = line)
      ∧ (∀ out ∈ _wrap_text [['a','b','c','d','e','f','g','h','i','j']] 30 6,
          out.length ≤ maxCharsOf 30 6)) :=
  ⟨by norm_num, wrap_text_spec [['a','b','c','d','e','f','g','h','i','j']] 30 6 (by norm_num)⟩

/-- C4: `extract_text_from_pdf` rejects with `InvalidRange` exactly when,
after normalisation (absent start becomes 1; absent or too-large end becomes
the page count), `start < 1` or `start > end`; in particular the range
`(5, 2)` is always rejected (regardless of the document, so no page is
extracted). -/
theorem extract_invalid_range_iff (pages : List PageExtract) (s e : Option Int) :
    (extract_text_from_pdf pages (s, e) = .error .invalidRange
      ↔ (normStart s < 1 ∨ normEnd (pages.length : Int) e < normStart s))
    ∧ extract_text_from_pdf pages (some 5, some 2) = .error .invalidRange := by
  constructor
  · unfold extract_text_from_pdf
    dsimp only
    split
    · rename_i h
      exact iff_of_true rfl h
    · rename_i h
      exact iff_of_false (by simp) h
  · have h2 : normEnd (pages.length : Int) (some 2) < normStart (some 5) := by
      simp only [normStart, normEnd, Option.getD_some]
      split <;> omega
    unfold extract_text_from_pdf
    dsimp only
    rw [if_pos (Or.inr h2)]

/-- C5: on a document with `N ≥ 1` pages, the fully-absent range
`(None, None)` extracts exactly the same text as the explicit range
`(1, N)`. -/
theorem extract_full_range_eq (pages : List PageExtract) (hN : 1 ≤ pages.length) :
    extract_text_from_pdf pages (none, none)
      = extract_text_from_pdf pages (some 1, some (pages.length : Int)) := by
  unfold extract_text_from_pdf
  dsimp only
  simp [normStart, normEnd]

/-- Witness for C5 on a concrete 1-page document. -/
theorem extract_full_range_eq_witness :
    1 ≤ ([PageExtract.returns (some ['h', 'i'])] : List PageExtract).length
    ∧ extract_text_from_pdf [PageExtract.returns (some ['h', 'i'])] (none, none)
      = extract_text_from_pdf [PageExtract.returns (some ['h', 'i'])]
          (some 1, some (([PageExtract.returns (some ['h', 'i'])] : List PageExtract).length : Int)) :=
  ⟨by decide, extract_full_range_eq [PageExtract.returns (some ['h', 'i'])] (by decide)⟩

/-- C6 counterexample: on a 1-page document, the provided end value `0` is out
of bounds (not in `1..1`) but is NOT normalised to the last page: the call
with range `(1, 0)` raises `InvalidRange`, while `(1, 1)` succeeds, so the two
calls do not behave alike.  Only `end > N` is clamped by the code. -/
theorem extract_end_zero_cex :
    extract_text_from_pdf [PageExtract.returns (some ['a'])] (some 1, some 0)
      ≠ extract_text_from_pdf [PageExtract.returns (some ['a'])] (some 1, some 1) := by
  intro h
  have h1 : extract_text_from_pdf [PageExtract.returns (some ['a'])] (some 1, some 0)
      = .error .invalidRange := by rfl
  have h2 : extract_text_from_pdf [PageExtract.returns (some ['a'])] (some 1, some 1)
      = .ok ['a'] := by rfl
  rw [h1, h2] at h
  exact Except.noConfusion h

/-- C6 amended: for every document, every start, and every provided end value
GREATER than the page count `N`, `extract_text_from_pdf` normalises end to
`N`, so the call behaves exactly like the call with range `(start, N)`; a
provided end value below 1 is not normalised and instead fails the
`start > end` check whenever `start ≥ 1`. -/
theorem extract_end_gt_clamped (pages : List PageExtract) (s : Option Int) (e0 : Int)
    (h : (pages.length : Int) < e0) :
    extract_text_from_pdf pages (s, some e0)
      = extract_text_from_pdf pages (s, some (pages.length : Int)) := by
  unfold extract_text_from_pdf
  dsimp only
  simp only [normEnd]
  rw [if_pos h, if_neg (lt_irrefl _)]

/-- Witness for C6 (amended) on a 1-page document with `end = 5`. -/
theorem extract_end_gt_clamped_witness :
    (([PageExtract.returns (some ['a'])] : List PageExtract).length : Int) < 5
    ∧ extract_text_from_pdf [PageExtract.returns (some ['a'])] (some 1, some 5)
      = extract_text_from_pdf [PageExtract.returns (some ['a'])]
          (some 1, some (([PageExtract.returns (some ['a'])] : List PageExtract).length : Int)) :=
  ⟨by decide, extract_end_gt_clamped [PageExtract.returns (some ['a'])] (some 1) 5 (by decide)⟩

/-- C7: for every valid normalised range, `extract_text_from_pdf` returns the
per-page texts of exactly the pages in the inclusive range (a raising page
contributing `""`), joined by a single newline and stripped; and when every
selected page yields no text the result is the empty string, not an error. -/
theorem extract_valid_range (pages : List PageExtract) (s e : Option Int)
    (h1 : 1 ≤ normStart s) (h2 : normStart s ≤ normEnd (pages.length : Int) e) :
    extract_text_from_pdf pages (s, e)
      = .ok (pyStrip (List.intercalate ['\n']
          ((pagesInRange pages (normStart s) (normEnd (pages.length : Int) e)).map pageTxt)))
    ∧ ((∀ p ∈ pagesInRange pages (normStart s) (normEnd (pages.length : Int) e), pageTxt p = [])
        → extract_text_from_pdf pages (s, e) = .ok []) := by
  have hle := normEnd_le (pages.length : Int) e
  have hslice : (pages.drop (normStart s - 1).toNat).take
        (normEnd (pages.length : Int) e - normStart s + 1).toNat
      = pagesInRange pages (normStart s) (normEnd (pages.length : Int) e) := by
    unfold pagesInRange
    exact drop_take_eq_map_range' pages .raises _ _ (by omega)
  have hmain : extract_text_from_pdf pages (s, e)
      = .ok (pyStrip (List.intercalate ['\n']
          ((pagesInRange pages (normStart s) (normEnd (pages.length : Int) e)).map pageTxt))) := by
    unfold extract_text_from_pdf
    dsimp only
    rw [if_neg (by omega), hslice]
  refine ⟨hmain, fun hall => ?_⟩
  rw [hmain]
  have hts : ∀ t ∈ (pagesInRange pages (normStart s) (normEnd (pages.length : Int) e)).map pageTxt,
      t = [] := by
    intro t ht
    rcases List.mem_map.mp ht with ⟨p, hp, rfl⟩
    exact hall p hp
  have hchar := intercalate_all_nil_mem '\n' _ hts
  have hstrip : pyStrip (List.intercalate ['\n']
      ((pagesInRange pages (normStart s) (normEnd (pages.length : Int) e)).map pageTxt)) = [] := by
    apply pyStrip_all_space
    intro c hc
    rw [hchar c hc]
    decide
  rw [hstrip]

/-- Witness for C7 on a concrete 1-page document with the range `(1, 1)`. -/
theorem extract_valid_range_witness :
    1 ≤ normStart (some 1)
    ∧ normStart (some 1)
        ≤ normEnd (([PageExtract.returns (some ['h', 'i'])] : List PageExtract).length : Int) (some 1)
    ∧ (extract_text_from_pdf [PageExtract.returns (some ['h', 'i'])] (some 1, some 1)
        = .ok (pyStrip (List.intercalate ['\n']
            ((pagesInRange [PageExtract.returns (some ['h', 'i'])] (normStart (some 1))
              (normEnd (([PageExtract.returns (some ['h', 'i'])] : List PageExtract).length : Int)
                (some 1))).map pageTxt)))
      ∧ ((∀ p ∈ pagesInRange [PageExtract.returns (some ['h', 'i'])] (normStart (some 1))
            (normEnd (([PageExtract.returns (some ['h', 'i'])] : List PageExtract).length : Int)
              (some 1)), pageTxt p = [])
          → extract_text_from_pdf [PageExtract.returns (some ['h', 'i'])] (some 1, some 1)
              = .ok [])) :=
  ⟨by decide, by decide,
    extract_valid_range [PageExtract.returns (some ['h', 'i'])] (some 1) (some 1)
      (by decide) (by decide)⟩

/-- C8: the failure modes of the speech-to-text layer are never fatal: an
un-understandable clip (`UnknownValueError`) yields `""` with nothing logged,
a backend `RequestError` yields `""` with an error logged, and a failed
microphone acquisition yields `""` with an error logged.  All three are plain
return values of total functions, not exceptions. -/
theorem stt_failures_empty (m errMic : List Char) (o : RecognizeOutcome) :
    (_recognize .unknownValue).1 = []
    ∧ (_recognize (.requestError m)).1 = []
    ∧ (_recognize (.requestError m)).2 ≠ []
    ∧ (speech_to_text (.error errMic) o).1 = []
    ∧ (speech_to_text (.error errMic) o).2 ≠ [] := by
  refine ⟨rfl, rfl, by simp [_recognize], rfl, by simp [speech_to_text]⟩

/-- C9: the CLI resolves falsy rate/volume/limit arguments with Python `or`,
so an explicit `--volume 0.0` becomes the default volume `0.9`, an explicit
`--rate 0` becomes the default rate `180` (each indistinguishable from
omitting the flag, whose `argparse` default is the same `Defaults` value),
and `--limit 0` becomes `None`, i.e. an unbounded microphone listen. -/
theorem cli_falsy_defaults :
    cmd_tts_volume 0 = 9 / 10
    ∧ cmd_tts_volume 0 = cmd_tts_volume Defaults_tts_volume
    ∧ cmd_tts_rate 0 = 180
    ∧ cmd_tts_rate 0 = cmd_tts_rate Defaults_tts_rate
    ∧ cmd_stt_limit (some 0) = none
    ∧ cmd_stt_limit (some 0) = cmd_stt_limit Defaults_phrase_time_limit := by
  refine ⟨?_, ?_, ?_, ?_, ?_, ?_⟩
  · norm_num [cmd_tts_volume, pyOrRat, Defaults_tts_volume]
  · norm_num [cmd_tts_volume, pyOrRat, Defaults_tts_volume]
  · decide
  · decide
  · decide
  · decide

/-- C10: on a document with zero pages, every page range is rejected with
`InvalidRange` — in particular `(None, None)` normalises to `start = 1`,
`end = 0`, failing `start > end` — so an empty document can never produce an
empty-string success. -/
theorem extract_empty_doc (page_range : Option Int × Option Int) :
    extract_text_from_pdf [] page_range = .error .invalidRange := by
  obtain ⟨s, e⟩ := page_range
  have he : normEnd ((0 : Nat) : Int) e ≤ 0 := by
    simpa using normEnd_le 0 e
  unfold extract_text_from_pdf
  dsimp only
  rw [if_pos]
  simp only [List.length_nil] at he ⊢
  rcases lt_or_le (normStart s) 1 with h | h
  · exact Or.inl h
  · exact Or.inr (by omega)
